import Mathlib

/-!
Verification of the ChainWhisper core against its specification.

The development shallowly embeds, in Lean, the parts of the repository that the
verified properties talk about:

* `src/src/services/encryption.js` (the `EncryptionService` class):
  key derivation, the hardcoded testing-key table, envelope production
  (`encryptForRecipient`) and envelope consumption (`decryptFromSender`);
* `src/src/services/sessionManager.js` (the `SessionManager` class) together
  with the on-chain state it manipulates (`src/contracts/ChatFactory.sol`):
  session reuse/creation and the chunked event scan;
* the conversation-replay pipeline of the CLI entry point
  (`handleReplayCommand`): merging of the two message sources and the
  read-time expiry policy.

Modelling conventions:

* byte strings are `List ℕ`; machine integers are `ℕ` (no overflow is relevant
  to the verified properties: the quantities involved are block numbers,
  second-resolution timestamps and byte values);
* the secp256k1 group and the external libsodium AEAD
  (XChaCha20-Poly1305) are external libraries, not repository code.  They
  enter the embedding as parameters: an additive commutative monoid `Point`
  with generator `G` models the curve (scalar multiplication `k • P` is the
  curve's scalar multiplication), `hash` models the composite
  x-coordinate-extraction-then-SHA-256 step of `generateSharedSecret`, and
  `aeadEnc`/`aeadDec` model `crypto_aead_xchacha20poly1305_ietf_encrypt` /
  `_decrypt` (`aeadDec` returning `none` models the throw on authentication
  failure).  Theorems that need a property of the AEAD (round-trip
  correctness, authentication) take it as an explicit hypothesis, and the
  concrete witnesses instantiate the parameters with executable toy versions;
* a JavaScript function that can throw to its caller is modelled with
  `Option`/`Except`; a function whose body is wrapped in a catch-all handler
  that converts failures into return values is modelled as a total function
  into a result type whose constructors correspond to the source's distinct
  return expressions.
-/

namespace ChainWhisper

/-- Model of JavaScript `String.prototype.toLowerCase` as used on the
ASCII address and hex strings of the repository: lower each character. -/
def toLowerCase (s : String) : String :=
  String.mk (s.data.map Char.toLower)

/-! ## EncryptionService (`src/src/services/encryption.js`) -/

/-- The hardcoded two-entry table of test private keys from
`getRecipientPrivateKeyForTesting` (lines 62-77).  The hex private-key
strings are read as natural-number scalars. -/
def testingKeys : List (String × ℕ) :=
  [("0x4B3462da947df564eA5d7bd23f5515fbEB093d55",
    0xd02a0bf9cf918bf11ded83e126a3dcb143c85fce4f9d5bf607a90b56633c8aac),
   ("0xd6ED9d6A26636df02D6A2a51A448cAC55795e016",
    0xe536d3033baab4a34254cc29c5a7a09c78161f54b21fe673cc15cec91a9496f0)]

/-- `EncryptionService.getRecipientPrivateKeyForTesting`: lower-case the
requested address, return the key of the first table entry whose
lower-cased address matches, and throw (here: `none`) when no entry
matches. -/
def getRecipientPrivateKeyForTesting (recipientAddress : String) : Option ℕ :=
  let normalizedAddress := toLowerCase recipientAddress
  (testingKeys.find? (fun e => toLowerCase e.1 == normalizedAddress)).map
    (fun e => e.2)

section Crypto

variable (Point : Type) [AddCommMonoid Point] (G : Point) (hash : Point → ℕ)
variable (aeadEnc : List ℕ → ℕ → ℕ → List ℕ)
variable (aeadDec : List ℕ → ℕ → ℕ → Option (List ℕ))

/-- `EncryptionService.getPublicKeyFromPrivate`: the public key is the
private scalar times the curve generator (the source derives it through
an `ethers` wallet and strips the `04` prefix; encodings are elided, the
model works with abstract curve points). -/
def getPublicKeyFromPrivate (privateKey : ℕ) : Point :=
  privateKey • G

/-- `EncryptionService.generateSharedSecret` (lines 34-59): static
Diffie-Hellman on secp256k1 followed by SHA-256.  `hash` stands for the
composite of x-coordinate extraction (`ecdh.computeSecret`) and
`createHash('sha256')`; hex-encoding validation of the inputs is elided
because the model passes points and scalars directly. -/
def generateSharedSecret (privateKey : ℕ) (publicKey : Point) : ℕ :=
  hash (privateKey • publicKey)

/-- The decoded payload fields of an envelope.  `ok` carries the base64
decoding of the `ciphertext` and `nonce` fields; `badEncoding` stands for
a payload whose truthy fields fail `from_base64` (that throw is caught by
the outer handler of `decryptFromSender`). -/
inductive PayloadBody where
  | ok (ciphertext : List ℕ) (nonce : ℕ)
  | badEncoding
deriving DecidableEq

/-- The parsed JSON envelope produced by `encryptForRecipient`
(lines 111-117): ciphertext, nonce, algorithm tag, key-derivation tag and
version string. -/
structure Payload where
  body : PayloadBody
  algorithm : String
  keyDerivation : String
  version : String
deriving DecidableEq

/-- Classification of the `encryptedData` text given to
`decryptFromSender`, by how the source's parsing phase behaves on it:
`unparseable` texts make `JSON.parse` throw, `missingFields` texts parse
but have a falsy `ciphertext` or `nonce` field (the source then throws
`Invalid encryption payload` into the same catch), and `parsed` texts
yield a payload with truthy `ciphertext` and `nonce`.  The first two
constructors record the character length of the text, which the source's
catch branch inspects. -/
inductive EncInput where
  | unparseable (length : ℕ)
  | missingFields (length : ℕ)
  | parsed (payload : Payload)
deriving DecidableEq

/-- The result of `decryptFromSender`.  Each constructor corresponds to
one return expression of the source: the decrypted message, the
`[Corrupted message - N chars]` sentinel, the
`[Legacy message format - please resend with current version]` sentinel,
and the `[Message could not be decrypted]` sentinel. -/
inductive DecResult where
  | message (bytes : List ℕ)
  | corruptedSentinel (length : ℕ)
  | legacySentinel
  | undecryptableSentinel
deriving DecidableEq

/-- The literal sentinel string each failure constructor denotes in the
source (`none` for an actual decrypted message, which is returned as
itself). -/
def sentinelText : DecResult → Option String
  | .message _ => none
  | .corruptedSentinel len =>
      some ("[Corrupted message - " ++ toString len ++ " chars]")
  | .legacySentinel =>
      some "[Legacy message format - please resend with current version]"
  | .undecryptableSentinel => some "[Message could not be decrypted]"

/-- `EncryptionService.encryptForRecipient` (lines 80-127): look up the
recipient's private key in the testing table (a miss throws, modelled by
`none`), derive the recipient public key, derive the shared key from the
sender's private key, AEAD-encrypt under a nonce (random in the source,
a parameter here) and assemble the self-describing envelope.  The source
performs no emptiness check on `message`.  `sodium.ready`
initialization, logging and base64 text encoding are elided. -/
def encryptForRecipient (message : List ℕ) (senderPrivateKey : ℕ)
    (recipientAddress : String) (nonce : ℕ) : Option Payload :=
  match getRecipientPrivateKeyForTesting recipientAddress with
  | none => none
  | some recipientPrivateKey =>
    let recipientPublicKey := getPublicKeyFromPrivate Point G recipientPrivateKey
    let sharedSecret :=
      generateSharedSecret Point hash senderPrivateKey recipientPublicKey
    some { body := PayloadBody.ok (aeadEnc message nonce sharedSecret) nonce,
           algorithm := "XChaCha20-Poly1305",
           keyDerivation := "ECDH-secp256k1",
           version := "3.0" }

/-- `EncryptionService.decryptFromSender` (lines 130-192).  Mirrors the
source's control flow in order: parse failure or falsy required fields
return the corrupted sentinel for texts shorter than 100 characters and
the legacy sentinel otherwise; a non-`XChaCha20-Poly1305` algorithm tag
returns the legacy sentinel; an unknown sender address makes the
testing-key lookup throw, which the outer handler converts to the
undecryptable sentinel; base64-decoding failures and AEAD
authentication failures reach the same handler; finally an empty
decrypted message is also converted to the undecryptable sentinel
(source lines 182-184). -/
def decryptFromSender (encryptedData : EncInput) (recipientPrivateKey : ℕ)
    (senderAddress : String) : DecResult :=
  match encryptedData with
  | .unparseable len =>
      if len < 100 then .corruptedSentinel len else .legacySentinel
  | .missingFields len =>
      if len < 100 then .corruptedSentinel len else .legacySentinel
  | .parsed payload =>
      if payload.algorithm ≠ "XChaCha20-Poly1305" then .legacySentinel
      else
        match getRecipientPrivateKeyForTesting senderAddress with
        | none => .undecryptableSentinel
        | some senderPrivateKey =>
          let senderPublicKey := getPublicKeyFromPrivate Point G senderPrivateKey
          let sharedSecret :=
            generateSharedSecret Point hash recipientPrivateKey senderPublicKey
          match payload.body with
          | .badEncoding => .undecryptableSentinel
          | .ok ciphertext nonce =>
            match aeadDec ciphertext nonce sharedSecret with
            | none => .undecryptableSentinel
            | some decryptedMessage =>
              if decryptedMessage.length = 0 then .undecryptableSentinel
              else .message decryptedMessage

end Crypto

/-! ## SessionLifecycleManager (`src/src/services/sessionManager.js` and
`src/contracts/ChatFactory.sol`)

The ledger is modelled for one fixed unordered participant pair, which is
all the verified properties and the `SessionManager` methods concerned
range over.  `sessionId` hashing, gas accounting, the per-user session
lists and the session counters of the factory are elided: the state keeps
the pair's current channel (the composition of `participantPairToSession`
and `sessionContracts`, with `none` standing for the zero address) plus an
address allocator; `nextAddr` stands for the fresh contract address the
EVM assigns to the next deployment, so distinct deployments get distinct
nonzero addresses. -/

/-- `ChatSession.SESSION_DURATION` (one hour, in seconds). -/
def SESSION_DURATION : ℕ := 3600

/-- The `ONE_HOUR` constant of `SessionManager.getOrCreateSession`. -/
def ONE_HOUR : ℕ := 60 * 60

/-- The on-chain state of one `ChatSession` contract: its address, its
`createdAt` timestamp and its `sessionActive` flag.  The contract fixes
`sessionExpiry = createdAt + SESSION_DURATION` at construction and never
changes it, so the expiry is computed rather than stored. -/
structure OnChainSession where
  addr : ℕ
  createdAt : ℕ
  active : Bool
deriving DecidableEq

/-- `ChatSession.isSessionExpired`: `block.timestamp >= sessionExpiry`. -/
def isSessionExpired (s : OnChainSession) (now : ℕ) : Bool :=
  decide (now ≥ s.createdAt + SESSION_DURATION)

/-- The `sessionMustBeActive` modifier guarding `ChatSession.sendMessage`:
the session accepts a message only while `sessionActive` holds and
`block.timestamp < sessionExpiry`. -/
def sessionMustBeActive (s : OnChainSession) (now : ℕ) : Bool :=
  s.active && decide (now < s.createdAt + SESSION_DURATION)

/-- Factory-side ledger state for the fixed pair: the current channel
mapping and the address allocator. -/
structure FactoryState where
  current : Option OnChainSession
  nextAddr : ℕ
deriving DecidableEq

/-- `ChatFactory.getSessionBetween` (lines 268-283), restricted to the
fixed pair: the mapped contract address (zero when none) and the
computed `isActive` flag (`sessionActive` and not expired). -/
def getSessionBetween (st : FactoryState) (now : ℕ) : ℕ × Bool :=
  match st.current with
  | none => (0, false)
  | some s => (s.addr, s.active && !(isSessionExpired s now))

/-- `ChatFactory.createChatSession` (lines 181-255), restricted to the
fixed pair: revert with `Active session exists` when the pair's current
channel is still active and unexpired, otherwise deploy a fresh
`ChatSession` (active, created now, at the next fresh address) and
repoint the pair mapping at it.  The keccak session-id collision check,
`MAX_SESSIONS_PER_USER` and the statistics counters are elided. -/
def createChatSession (st : FactoryState) (now : ℕ) : Except String FactoryState :=
  match st.current with
  | some s =>
    if s.active && !(isSessionExpired s now) then .error "Active session exists"
    else .ok ⟨some ⟨st.nextAddr, now, true⟩, st.nextAddr + 1⟩
  | none => .ok ⟨some ⟨st.nextAddr, now, true⟩, st.nextAddr + 1⟩

/-- The result `SessionManager` returns to its callers: the channel
contract address and whether the channel already existed. -/
structure SessionResult where
  contractAddress : ℕ
  existed : Bool
deriving DecidableEq

/-- `SessionManager.createSession` (lines 85-145): submit
`createChatSession` (a revert propagates to the caller), re-read the pair
mapping, throw if it is still the zero address, and return the mapped
address with `existed = false`.  Gas estimation and the in-memory
`activeSessions` cache (which is never read back by the verified paths)
are elided. -/
def createSession (st : FactoryState) (now : ℕ) :
    Except String (FactoryState × SessionResult) :=
  match createChatSession st now with
  | .error e => .error e
  | .ok st2 =>
    match getSessionBetween st2 now with
    | (0, _) => .error "Session contract not found after creation"
    | (addr, _) => .ok (st2, ⟨addr, false⟩)

/-- `SessionManager.getOrCreateSession` (lines 12-82): read the pair
mapping through `getSessionBetween` and test only its contract address
against the zero address — the returned `isActive` flag is ignored.  When
a channel is mapped, read its `createdAt` and compare its age against
`ONE_HOUR`: strictly older channels are superseded through
`createSession`, otherwise the mapped address is returned with
`existed = true`.  The fallback that reuses the channel when the
`createdAt` read itself fails is not modelled (the verified properties
are about successful reads). -/
def getOrCreateSession (st : FactoryState) (now : ℕ) :
    Except String (FactoryState × SessionResult) :=
  let existingAddr := (getSessionBetween st now).1
  if existingAddr ≠ 0 then
    match st.current with
    | some s =>
      if now - s.createdAt > ONE_HOUR then createSession st now
      else .ok (st, ⟨existingAddr, true⟩)
    | none => createSession st now
  else createSession st now

/-- Executable well-formedness of the factory state: the allocator is
ahead of every deployed address and deployed addresses are nonzero. -/
def FactoryInv (st : FactoryState) : Bool :=
  decide (0 < st.nextAddr) &&
    match st.current with
    | none => true
    | some s => decide (0 < s.addr) && decide (s.addr < st.nextAddr)

/-! ## Message records and the chunked event scan -/

/-- The argument record of a `MessageSent` event of a `ChatSession`
contract. -/
structure ChainEvent where
  sender : String
  cid : String
  timestamp : ℕ
  expiry : ℕ
  messageIndex : ℕ
deriving DecidableEq

/-- A conversation message as the read side assembles it: `source` is
the channel-kind annotation (`"main"` for the persistent store, set in
`BlockchainService.getConversationMessages`, and `"session"` for session
channels, set in `SessionManager.getSessionMessagesWithLimit`).  Fields
the verified properties never inspect (media flags, block numbers,
transaction hashes) are elided. -/
structure Message where
  sender : String
  cid : String
  timestamp : ℕ
  expiry : ℕ
  source : String
deriving DecidableEq

/-- The sort key of both message sorts in the source: the JavaScript
comparator `(a, b) => a.timestamp - b.timestamp` orders ascending by
creation timestamp. -/
def byTimestamp (a b : Message) : Prop := a.timestamp ≤ b.timestamp

instance : DecidableRel byTimestamp := fun a b => Nat.decLe a.timestamp b.timestamp

instance : IsTotal Message byTimestamp :=
  ⟨fun a b => Nat.le_total a.timestamp b.timestamp⟩

instance : IsTrans Message byTimestamp :=
  ⟨fun _ _ _ => Nat.le_trans⟩

/-- How `getSessionMessagesWithLimit` turns a `MessageSent` event into a
message record: copy the event arguments and annotate `source:
'session'`. -/
def eventToSessionMessage (e : ChainEvent) : Message :=
  ⟨e.sender, e.cid, e.timestamp, e.expiry, "session"⟩

/-- Outcome of one `queryFilter(filter, from, to)` call against the RPC
provider: a list of events, a rejection whose message matches the
source's `too large` / `range` test, or any other failure. -/
inductive QueryResult where
  | ok (events : List ChainEvent)
  | rangeError
  | otherError
deriving DecidableEq

/-- The block values a loop `for (b = start; b <= cur; b += step)` visits
(empty when `start > cur`; the source only uses the positive steps 500
and 100). -/
def chunkStarts (start cur step : ℕ) : List ℕ :=
  if start ≤ cur then
    (List.range ((cur - start) / step + 1)).map (fun i => start + step * i)
  else []

/-- The smaller-chunk retry loop in the catch block of
`getSessionMessagesWithLimit` (source lines 230-254), as it actually
executes.  The loop's body calls `queryFilter(filter, smallBlock,
smallToBlock)`, but `filter` is bound by `const` inside the try block of
the outer loop (line 204) and is therefore not in scope in the catch
block: evaluating the call throws a `ReferenceError`, which the inner
`catch (smallError)` swallows before any query is issued, so every
sub-chunk is skipped and the retry contributes no events. -/
def retrySmallChunks (block toBlock : ℕ) : List ChainEvent :=
  (chunkStarts block toBlock 100).flatMap (fun _smallBlock => [])

/-- The smaller-chunk retry as the specification describes it (and as the
source's own `Trying smaller chunk (100 blocks)` log message announces
it): re-query each 100-block sub-range, collect the events of the
sub-queries that succeed and drop only the sub-ranges that fail again.
This is the comparison point for the scoping bug in `retrySmallChunks`;
it is not what the code executes. -/
def retrySmallChunksIntended (query : ℕ → ℕ → QueryResult)
    (block toBlock : ℕ) : List ChainEvent :=
  (chunkStarts block toBlock 100).flatMap (fun smallBlock =>
    match query smallBlock (min (smallBlock + 99) toBlock) with
    | .ok events => events
    | _ => [])

/-- One iteration of the outer chunk loop of
`getSessionMessagesWithLimit`: query the 500-block chunk clipped to the
current block; on success keep its events, on a range rejection run the
smaller-chunk retry, on any other failure skip the chunk.  No failure
aborts the loop (`continue` in the source). -/
def processChunk (query : ℕ → ℕ → QueryResult) (currentBlock block : ℕ) :
    List ChainEvent :=
  let toBlock := min (block + 499) currentBlock
  match query block toBlock with
  | .ok events => events
  | .rangeError => retrySmallChunks block toBlock
  | .otherError => []

/-- `SessionManager.getSessionMessagesWithLimit` (lines 177-278): scan at
most the last 10000 blocks in 500-block chunks starting from
`max (currentBlock - 10000) fromBlock`, collect the events the chunk
queries deliver, convert them to session message records and sort them
ascending by timestamp (JavaScript `Array.prototype.sort` is a stable
sort, modelled by `List.insertionSort`). -/
def getSessionMessagesWithLimit (query : ℕ → ℕ → QueryResult)
    (currentBlock fromBlock : ℕ) : List Message :=
  let maxBlocksToScan := 10000
  let safeStartBlock := max (currentBlock - maxBlocksToScan) fromBlock
  let messages := (chunkStarts safeStartBlock currentBlock 500).flatMap
    (fun block => (processChunk query currentBlock block).map eventToSessionMessage)
  List.insertionSort byTimestamp messages

/-! ## Conversation replay (`handleReplayCommand` in the CLI entry point) -/

/-- The merge step of `handleReplayCommand` (part_002 lines 360-361):
concatenate the persistent-store messages and the session messages and
sort ascending by creation timestamp.  The JavaScript
`allMessages.sort((a, b) => a.timestamp - b.timestamp)` is a stable
ascending sort, modelled by `List.insertionSort` (which places an element
before later elements with an equal key, preserving arrival order on
ties). -/
def mergeConversation (standardMessages sessionMessages : List Message) :
    List Message :=
  List.insertionSort byTimestamp (standardMessages ++ sessionMessages)

/-- What the replay loop prints for one message.  `expired` corresponds
to the expired branch (part_002 lines 386-390), which prints only the
index and the creation timestamp and hides the content; `shown`
corresponds to the normal branch, which prints the sender label (derived
from a lower-cased address comparison), the timestamp, the
source-channel icon and the decryption result. -/
inductive RenderEntry where
  | expired (timestamp : ℕ)
  | shown (isFromMe : Bool) (sender : String) (timestamp : ℕ)
      (sourceIcon : String) (content : DecResult) (expiry : ℕ)
deriving DecidableEq

/-- The source-channel icon of the replay rendering: a lock for session
messages, an envelope otherwise. -/
def sourceIcon (source : String) : String :=
  if source == "session" then "🔒" else "📨"

/-- One iteration of the replay display loop (part_002 lines 380-434).
The expired test is the source's
`message.expiry && message.expiry > 0 && currentTime > message.expiry`;
when it holds the loop prints the expired placeholder and `continue`s
without calling `decryptFromSender`, so the rendering is independent of
the decryption function (passed here as the parameter `decrypt`). -/
def renderMessage (decrypt : Message → DecResult) (now : ℕ)
    (myAddress : String) (m : Message) : RenderEntry :=
  if m.expiry ≠ 0 ∧ now > m.expiry then .expired m.timestamp
  else
    .shown (toLowerCase m.sender == toLowerCase myAddress) m.sender
      m.timestamp (sourceIcon m.source) (decrypt m) m.expiry

/-! ## Concrete instantiations used by the witnesses

The abstract curve and AEAD parameters are instantiated with small
executable stand-ins so that the theorems can be exercised on concrete
inputs: the curve becomes the additive monoid `ℕ` with generator `1`
(scalar multiplication is then ordinary multiplication), the hash becomes
the identity, and the AEAD becomes a toy scheme that shifts the plaintext
bytes by the key and appends a tag binding nonce, key and length.  The
toy scheme satisfies the round-trip equation the libsodium AEAD
guarantees, and its tag check rejects mismatched keys on the concrete
inputs the witnesses use. -/

/-- Toy AEAD encryption: shift each byte by `key + 1` and append a tag
computed from nonce, key and message length. -/
def toyAeadEnc (message : List ℕ) (nonce key : ℕ) : List ℕ :=
  message.map (fun b => b + key + 1) ++ [nonce + key + message.length]

/-- Toy AEAD decryption: check the tag, then undo the shift; `none` on a
tag mismatch, mirroring the throw of the libsodium decrypt. -/
def toyAeadDec (ciphertext : List ℕ) (nonce key : ℕ) : Option (List ℕ) :=
  match ciphertext.reverse with
  | [] => none
  | tag :: revBody =>
    if tag = nonce + key + revBody.length then
      some ((revBody.reverse).map (fun b => b - (key + 1)))
    else none

theorem toyAead_roundTrip (message : List ℕ) (nonce key : ℕ) :
    toyAeadDec (toyAeadEnc message nonce key) nonce key = some message := by
  unfold toyAeadEnc toyAeadDec
  rw [List.reverse_append]
  simp [List.map_map, Function.comp, Nat.add_assoc, Nat.add_sub_cancel]
  have hcomp : ((fun b => b - (key + 1)) ∘ fun b => b + (key + 1)) =
      (id : ℕ → ℕ) := by
    funext b
    simp
  rw [hcomp, List.map_id]

/-- The first testing address, as written in the source table. -/
def testAddr1 : String := "0x4B3462da947df564eA5d7bd23f5515fbEB093d55"

/-- The second testing address, as written in the source table. -/
def testAddr2 : String := "0xd6ED9d6A26636df02D6A2a51A448cAC55795e016"

/-- The private scalar of `testAddr1` in the source table. -/
def testKey1 : ℕ :=
  0xd02a0bf9cf918bf11ded83e126a3dcb143c85fce4f9d5bf607a90b56633c8aac

/-- The private scalar of `testAddr2` in the source table. -/
def testKey2 : ℕ :=
  0xe536d3033baab4a34254cc29c5a7a09c78161f54b21fe673cc15cec91a9496f0

/-! ## Theorems -/

/-- Commutativity of the derived shared key, shared by the claims about
key agreement and the round trip: hashing commutes with nothing, but the
underlying points agree because scalar multiplication satisfies
`a • (b • G) = (a * b) • G`. -/
theorem sharedSecret_comm (Point : Type) [AddCommMonoid Point] (G : Point)
    (hash : Point → ℕ) (a b : ℕ) :
    generateSharedSecret Point hash a (getPublicKeyFromPrivate Point G b) =
      generateSharedSecret Point hash b (getPublicKeyFromPrivate Point G a) := by
  unfold generateSharedSecret getPublicKeyFromPrivate
  rw [smul_smul, smul_smul, Nat.mul_comm]

/-- C4: shared-key derivation is commutative — for every curve model and
scalars `a`, `b`, `generateSharedSecret` of `a` with `b`'s public key
equals `generateSharedSecret` of `b` with `a`'s public key. -/
theorem generateSharedSecret_commutative (Point : Type) [AddCommMonoid Point]
    (G : Point) (hash : Point → ℕ) (a b : ℕ) :
    generateSharedSecret Point hash a (getPublicKeyFromPrivate Point G b) =
      generateSharedSecret Point hash b (getPublicKeyFromPrivate Point G a) :=
  sharedSecret_comm Point G hash a b

/-- C1: the round trip through `encryptForRecipient` and
`decryptFromSender` is the identity on non-empty plaintexts, for any pair
of identities the testing-key table resolves to the private keys the
caller supplies, given the AEAD round-trip property of the external
cipher. -/
theorem encryptDecrypt_roundTrip (Point : Type) [AddCommMonoid Point]
    (G : Point) (hash : Point → ℕ)
    (aeadEnc : List ℕ → ℕ → ℕ → List ℕ)
    (aeadDec : List ℕ → ℕ → ℕ → Option (List ℕ))
    (m : List ℕ) (hm : m ≠ [])
    (apriv bpriv nonce : ℕ) (senderAddress recipientAddress : String)
    (hA : getRecipientPrivateKeyForTesting senderAddress = some apriv)
    (hB : getRecipientPrivateKeyForTesting recipientAddress = some bpriv)
    (haead : ∀ k, aeadDec (aeadEnc m nonce k) nonce k = some m) :
    ∃ envelope,
      encryptForRecipient Point G hash aeadEnc m apriv recipientAddress nonce
        = some envelope ∧
      decryptFromSender Point G hash aeadDec (EncInput.parsed envelope)
        bpriv senderAddress = DecResult.message m := by
  have hkey := sharedSecret_comm Point G hash apriv bpriv
  refine ⟨⟨PayloadBody.ok
      (aeadEnc m nonce (generateSharedSecret Point hash apriv
        (getPublicKeyFromPrivate Point G bpriv))) nonce,
      "XChaCha20-Poly1305", "ECDH-secp256k1", "3.0"⟩, ?_, ?_⟩
  · unfold encryptForRecipient
    rw [hB]
  · simp only [decryptFromSender]
    rw [if_neg (by decide)]
    rw [hA]
    simp only [hkey, haead]
    rw [if_neg (by simpa using hm)]

/-- C1 witness: the round trip at a concrete input — the two testing
identities, plaintext `[104, 105]`, nonce `5`, the toy curve and AEAD. -/
theorem encryptDecrypt_roundTrip_witness :
    ∃ envelope,
      encryptForRecipient ℕ 1 id toyAeadEnc [104, 105] testKey2 testAddr1 5
        = some envelope ∧
      decryptFromSender ℕ 1 id toyAeadDec (EncInput.parsed envelope)
        testKey1 testAddr2 = DecResult.message [104, 105] :=
  encryptDecrypt_roundTrip ℕ 1 id toyAeadEnc toyAeadDec [104, 105]
    (by decide) testKey2 testKey1 5 testAddr2 testAddr1
    (by decide) (by decide) (fun k => toyAead_roundTrip [104, 105] 5 k)

/-- C3 counterexample: `encryptForRecipient` performs no emptiness check —
on the empty plaintext it succeeds and produces an envelope (here with
the toy curve and AEAD, recipient `testAddr1`, nonce `7`), rather than
rejecting with an `EmptyMessage` error. -/
theorem encrypt_empty_produces_envelope :
    (encryptForRecipient ℕ 1 id toyAeadEnc [] 42 testAddr1 7).isSome = true := by
  decide

/-- C3 amended: for the empty plaintext input, `encryptForRecipient` does
not reject — whenever the recipient address resolves in the testing
table, it returns the envelope that AEAD-encrypts the empty message (the
source has no `EmptyMessage` check; an empty `--message` is only stopped
earlier, in the CLI argument check, as a missing command). -/
theorem encrypt_empty_no_reject (Point : Type) [AddCommMonoid Point]
    (G : Point) (hash : Point → ℕ) (aeadEnc : List ℕ → ℕ → ℕ → List ℕ)
    (senderPrivateKey nonce : ℕ) (recipientAddress : String)
    (recipientPrivateKey : ℕ)
    (h : getRecipientPrivateKeyForTesting recipientAddress
          = some recipientPrivateKey) :
    encryptForRecipient Point G hash aeadEnc [] senderPrivateKey
        recipientAddress nonce =
      some ⟨PayloadBody.ok
        (aeadEnc [] nonce (generateSharedSecret Point hash senderPrivateKey
          (getPublicKeyFromPrivate Point G recipientPrivateKey))) nonce,
        "XChaCha20-Poly1305", "ECDH-secp256k1", "3.0"⟩ := by
  unfold encryptForRecipient
  rw [h]

/-- C3 witness: the amended statement at a concrete input. -/
theorem encrypt_empty_no_reject_witness :
    encryptForRecipient ℕ 1 id toyAeadEnc [] 42 testAddr1 7 =
      some ⟨PayloadBody.ok
        (toyAeadEnc [] 7 (generateSharedSecret ℕ id 42
          (getPublicKeyFromPrivate ℕ 1 testKey1))) 7,
        "XChaCha20-Poly1305", "ECDH-secp256k1", "3.0"⟩ :=
  encrypt_empty_no_reject ℕ 1 id toyAeadEnc 42 7 testAddr1 testKey1 (by decide)

/-- C2: `decryptFromSender` converts every failure into a sentinel
result.  Unparseable texts and texts lacking the required fields give the
corrupted sentinel below 100 characters and the legacy sentinel
otherwise; a foreign algorithm tag gives the legacy sentinel; and when
the AEAD rejects the ciphertext under the derived key (tampering or a
mismatched key, taken as a hypothesis on the external cipher), the result
is the undecryptable sentinel — in particular never the original
plaintext. -/
theorem decryptFromSender_sentinels (Point : Type) [AddCommMonoid Point]
    (G : Point) (hash : Point → ℕ)
    (aeadDec : List ℕ → ℕ → ℕ → Option (List ℕ)) :
    (∀ len key addr,
      decryptFromSender Point G hash aeadDec (EncInput.unparseable len) key addr
        = if len < 100 then DecResult.corruptedSentinel len
          else DecResult.legacySentinel) ∧
    (∀ len key addr,
      decryptFromSender Point G hash aeadDec (EncInput.missingFields len) key addr
        = if len < 100 then DecResult.corruptedSentinel len
          else DecResult.legacySentinel) ∧
    (∀ payload key addr, payload.algorithm ≠ "XChaCha20-Poly1305" →
      decryptFromSender Point G hash aeadDec (EncInput.parsed payload) key addr
        = DecResult.legacySentinel) ∧
    (∀ ciphertext nonce kd v key addr senderPriv,
      getRecipientPrivateKeyForTesting addr = some senderPriv →
      aeadDec ciphertext nonce (generateSharedSecret Point hash key
        (getPublicKeyFromPrivate Point G senderPriv)) = none →
      decryptFromSender Point G hash aeadDec
          (EncInput.parsed ⟨PayloadBody.ok ciphertext nonce,
            "XChaCha20-Poly1305", kd, v⟩) key addr
        = DecResult.undecryptableSentinel ∧
      ∀ m, decryptFromSender Point G hash aeadDec
          (EncInput.parsed ⟨PayloadBody.ok ciphertext nonce,
            "XChaCha20-Poly1305", kd, v⟩) key addr ≠ DecResult.message m) := by
  refine ⟨fun len key addr => rfl, fun len key addr => rfl, ?_, ?_⟩
  · intro payload key addr halg
    simp only [decryptFromSender]
    rw [if_pos halg]
  · intro ciphertext nonce kd v key addr senderPriv hlook hauth
    have hres : decryptFromSender Point G hash aeadDec
        (EncInput.parsed ⟨PayloadBody.ok ciphertext nonce,
          "XChaCha20-Poly1305", kd, v⟩) key addr
        = DecResult.undecryptableSentinel := by
      simp only [decryptFromSender]
      rw [if_neg (by decide)]
      rw [hlook]
      simp only [hauth]
    exact ⟨hres, fun m => by rw [hres]; exact fun h => DecResult.noConfusion h⟩

/-- C2 witness: the sentinel behaviors at concrete inputs — a short
unparseable text, a long field-less text, a foreign algorithm tag, and an
authentication failure (toy AEAD, key `0`, sender `testAddr1`). -/
theorem decryptFromSender_sentinels_witness :
    decryptFromSender ℕ 1 id toyAeadDec (EncInput.unparseable 5) 0 "z"
      = DecResult.corruptedSentinel 5 ∧
    decryptFromSender ℕ 1 id toyAeadDec (EncInput.missingFields 200) 0 "z"
      = DecResult.legacySentinel ∧
    decryptFromSender ℕ 1 id toyAeadDec
        (EncInput.parsed ⟨PayloadBody.ok [1] 0, "AES-GCM", "k", "v"⟩) 0 "z"
      = DecResult.legacySentinel ∧
    decryptFromSender ℕ 1 id toyAeadDec
        (EncInput.parsed ⟨PayloadBody.ok [5] 0,
          "XChaCha20-Poly1305", "ECDH-secp256k1", "3.0"⟩) 0 testAddr1
      = DecResult.undecryptableSentinel := by
  have h := decryptFromSender_sentinels ℕ 1 id toyAeadDec
  refine ⟨?_, ?_, ?_, ?_⟩
  · have h1 := h.1 5 0 "z"
    simpa using h1
  · have h2 := h.2.1 200 0 "z"
    simpa using h2
  · exact h.2.2.1 ⟨PayloadBody.ok [1] 0, "AES-GCM", "k", "v"⟩ 0 "z" (by decide)
  · exact (h.2.2.2 [5] 0 "ECDH-secp256k1" "3.0" 0 testAddr1 testKey1
      (by decide) (by decide)).1

/-- C9: the hardcoded testing-key table gates both directions — for a
recipient address the table does not resolve, `encryptForRecipient`
throws and produces no envelope; for a sender address the table does not
resolve, `decryptFromSender` returns the undecryptable sentinel even on a
well-formed current-format envelope; and the table resolves exactly the
two fixed test addresses (case-insensitively). -/
theorem testingKeys_gate (Point : Type) [AddCommMonoid Point] (G : Point)
    (hash : Point → ℕ) (aeadEnc : List ℕ → ℕ → ℕ → List ℕ)
    (aeadDec : List ℕ → ℕ → ℕ → Option (List ℕ)) :
    (∀ addr m k n, getRecipientPrivateKeyForTesting addr = none →
      encryptForRecipient Point G hash aeadEnc m k addr n = none) ∧
    (∀ addr key payload, getRecipientPrivateKeyForTesting addr = none →
      payload.algorithm = "XChaCha20-Poly1305" →
      decryptFromSender Point G hash aeadDec (EncInput.parsed payload) key addr
        = DecResult.undecryptableSentinel) ∧
    (∀ addr, getRecipientPrivateKeyForTesting addr = none ↔
      (toLowerCase addr ≠ toLowerCase testAddr1 ∧
       toLowerCase addr ≠ toLowerCase testAddr2)) := by
  refine ⟨?_, ?_, ?_⟩
  · intro addr m k n hnone
    simp only [encryptForRecipient]
    rw [hnone]
  · intro addr key payload hnone halg
    simp only [decryptFromSender]
    rw [if_neg (by simp [halg])]
    rw [hnone]
  · intro addr
    simp only [testAddr1, testAddr2]
    constructor
    · intro hnone
      refine ⟨?_, ?_⟩
      · intro h1
        have hb : (toLowerCase "0x4B3462da947df564eA5d7bd23f5515fbEB093d55"
            == toLowerCase addr) = true := beq_iff_eq.mpr h1.symm
        simp only [getRecipientPrivateKeyForTesting, testingKeys,
          List.find?, hb, Option.map_some'] at hnone
        exact Option.some_ne_none _ hnone
      · intro h2
        have hb2 : (toLowerCase "0xd6ED9d6A26636df02D6A2a51A448cAC55795e016"
            == toLowerCase addr) = true := beq_iff_eq.mpr h2.symm
        cases hb1 : (toLowerCase "0x4B3462da947df564eA5d7bd23f5515fbEB093d55"
            == toLowerCase addr) with
        | true =>
          simp only [getRecipientPrivateKeyForTesting, testingKeys,
            List.find?, hb1, Option.map_some'] at hnone
          exact Option.some_ne_none _ hnone
        | false =>
          simp only [getRecipientPrivateKeyForTesting, testingKeys,
            List.find?, hb1, hb2, Option.map_some'] at hnone
          exact Option.some_ne_none _ hnone
    · intro h
      have b1 : (toLowerCase "0x4B3462da947df564eA5d7bd23f5515fbEB093d55"
          == toLowerCase addr) = false :=
        beq_eq_false_iff_ne.mpr (fun hx => h.1 hx.symm)
      have b2 : (toLowerCase "0xd6ED9d6A26636df02D6A2a51A448cAC55795e016"
          == toLowerCase addr) = false :=
        beq_eq_false_iff_ne.mpr (fun hx => h.2 hx.symm)
      simp only [getRecipientPrivateKeyForTesting, testingKeys,
        List.find?, b1, b2, Option.map_none']

/-- C9 witness: the gate at concrete inputs — address `0xABCD` is not in
the table, so encryption throws, decryption of a well-formed envelope is
undecryptable, and the table membership test computes to false. -/
theorem testingKeys_gate_witness :
    encryptForRecipient ℕ 1 id toyAeadEnc [1] 3 "0xABCD" 0 = none ∧
    decryptFromSender ℕ 1 id toyAeadDec
        (EncInput.parsed ⟨PayloadBody.ok [5] 0,
          "XChaCha20-Poly1305", "ECDH-secp256k1", "3.0"⟩) 3 "0xABCD"
      = DecResult.undecryptableSentinel ∧
    (getRecipientPrivateKeyForTesting "0xABCD" = none ↔
      (toLowerCase "0xABCD" ≠ toLowerCase testAddr1 ∧
       toLowerCase "0xABCD" ≠ toLowerCase testAddr2)) := by
  have h := testingKeys_gate ℕ 1 id toyAeadEnc toyAeadDec
  exact ⟨h.1 "0xABCD" [1] 3 0 (by decide),
    h.2.1 "0xABCD" 3 ⟨PayloadBody.ok [5] 0,
      "XChaCha20-Poly1305", "ECDH-secp256k1", "3.0"⟩ (by decide) rfl,
    h.2.2 "0xABCD"⟩

/-- Helper: when the pair has a current channel of age at most one hour,
`getOrCreateSession` reuses it, returning its address with
`existed = true` and leaving the ledger unchanged. -/
theorem reuse_of_young (st : FactoryState) (s : OnChainSession) (now : ℕ)
    (hc : st.current = some s) (haddr : s.addr ≠ 0)
    (hyoung : now - s.createdAt ≤ ONE_HOUR) :
    getOrCreateSession st now = .ok (st, ⟨s.addr, true⟩) := by
  unfold getOrCreateSession
  simp only [getSessionBetween, hc]
  rw [if_pos haddr]
  rw [if_neg (Nat.not_lt.mpr hyoung)]

/-- Helper: the facts the executable invariant packs. -/
theorem factoryInv_facts (st : FactoryState) (h : FactoryInv st = true) :
    0 < st.nextAddr ∧
      ∀ s, st.current = some s → 0 < s.addr ∧ s.addr < st.nextAddr := by
  unfold FactoryInv at h
  match hcur : st.current with
  | none =>
    rw [hcur] at h
    simp only [Bool.and_true, decide_eq_true_eq] at h
    exact ⟨h, fun s hs => Option.noConfusion hs⟩
  | some s0 =>
    rw [hcur] at h
    simp only [Bool.and_eq_true, decide_eq_true_eq] at h
    refine ⟨h.1, fun s hs => ?_⟩
    injection hs with hss
    subst hss
    exact h.2

/-- Helper: when the pair has a current channel strictly older than one
hour, `getOrCreateSession` supersedes it: the factory deploys a fresh
channel at the allocator address (the old channel counts as expired on
chain, so `createChatSession` does not revert) and the result is the new
address with `existed = false`. -/
theorem create_of_old (st : FactoryState) (s : OnChainSession) (now : ℕ)
    (hinv : FactoryInv st = true) (hc : st.current = some s)
    (hold : ONE_HOUR < now - s.createdAt) :
    getOrCreateSession st now =
      .ok (⟨some ⟨st.nextAddr, now, true⟩, st.nextAddr + 1⟩,
           ⟨st.nextAddr, false⟩) := by
  obtain ⟨hna, hcurf⟩ := factoryInv_facts st hinv
  obtain ⟨ha0, halt⟩ := hcurf s hc
  have hexp : isSessionExpired s now = true := by
    unfold isSessionExpired SESSION_DURATION
    have h1 : ONE_HOUR = 3600 := rfl
    simp only [decide_eq_true_eq]
    omega
  unfold getOrCreateSession
  simp only [getSessionBetween, hc]
  rw [if_pos (by omega)]
  rw [if_pos hold]
  unfold createSession createChatSession
  simp only [hc, hexp, Bool.not_true, Bool.and_false, getSessionBetween]
  rw [if_neg (by simp)]
  obtain ⟨m, hm⟩ : ∃ m, st.nextAddr = m + 1 := ⟨st.nextAddr - 1, by omega⟩
  rw [hm]
  rfl

/-- Helper: when the pair has no current channel, `getOrCreateSession`
creates one at the allocator address with `existed = false`. -/
theorem create_of_none (st : FactoryState) (now : ℕ)
    (hinv : FactoryInv st = true) (hc : st.current = none) :
    getOrCreateSession st now =
      .ok (⟨some ⟨st.nextAddr, now, true⟩, st.nextAddr + 1⟩,
           ⟨st.nextAddr, false⟩) := by
  obtain ⟨hna, _⟩ := factoryInv_facts st hinv
  unfold getOrCreateSession
  simp only [getSessionBetween, hc]
  rw [if_neg (by simp)]
  unfold createSession createChatSession
  simp only [hc, getSessionBetween]
  obtain ⟨m, hm⟩ : ∃ m, st.nextAddr = m + 1 := ⟨st.nextAddr - 1, by omega⟩
  rw [hm]
  rfl

/-- C5: after any successful `getOrCreateSession` call, the pair has a
current channel whose address is the returned one; calling again while
the channel is at most one hour past its creation returns the same
address with `existed = true` and does not change the ledger, and calling
again strictly more than one hour past its creation returns a fresh,
different address with `existed = false`. -/
theorem getOrCreateSession_lifecycle (st st1 : FactoryState) (t1 : ℕ)
    (r1 : SessionResult) (hinv : FactoryInv st = true)
    (h1 : getOrCreateSession st t1 = .ok (st1, r1)) :
    ∃ s, st1.current = some s ∧ s.addr = r1.contractAddress ∧
      (∀ t2, t2 - s.createdAt ≤ ONE_HOUR →
        getOrCreateSession st1 t2 = .ok (st1, ⟨r1.contractAddress, true⟩)) ∧
      (∀ t2, ONE_HOUR < t2 - s.createdAt →
        ∃ st2 r2, getOrCreateSession st1 t2 = .ok (st2, r2) ∧
          r2.existed = false ∧ r2.contractAddress ≠ r1.contractAddress) := by
  obtain ⟨hna, hcurf⟩ := factoryInv_facts st hinv
  -- establish what the first call did, together with the invariant after it
  have hmain : ∃ s, st1.current = some s ∧ s.addr = r1.contractAddress ∧
      0 < s.addr ∧ s.addr < st1.nextAddr := by
    match hcur : st.current with
    | none =>
      rw [create_of_none st t1 hinv hcur] at h1
      simp only [Except.ok.injEq, Prod.mk.injEq] at h1
      obtain ⟨hst, hr⟩ := h1
      subst hst
      subst hr
      exact ⟨⟨st.nextAddr, t1, true⟩, rfl, rfl, hna, Nat.lt_succ_self _⟩
    | some s0 =>
      obtain ⟨ha0, halt⟩ := hcurf s0 hcur
      by_cases hage : t1 - s0.createdAt ≤ ONE_HOUR
      · rw [reuse_of_young st s0 t1 hcur (by omega) hage] at h1
        simp only [Except.ok.injEq, Prod.mk.injEq] at h1
        obtain ⟨hst, hr⟩ := h1
        subst hst
        subst hr
        exact ⟨s0, hcur, rfl, ha0, halt⟩
      · rw [create_of_old st s0 t1 hinv hcur (by omega)] at h1
        simp only [Except.ok.injEq, Prod.mk.injEq] at h1
        obtain ⟨hst, hr⟩ := h1
        subst hst
        subst hr
        exact ⟨⟨st.nextAddr, t1, true⟩, rfl, rfl, hna, Nat.lt_succ_self _⟩
  obtain ⟨s, hc1, haddr1, hpos1, hlt1⟩ := hmain
  have hinv1 : FactoryInv st1 = true := by
    unfold FactoryInv
    rw [hc1]
    simp only [Bool.and_eq_true, decide_eq_true_eq]
    exact ⟨by omega, by omega, by omega⟩
  refine ⟨s, hc1, haddr1, ?_, ?_⟩
  · intro t2 hyoung
    rw [← haddr1]
    exact reuse_of_young st1 s t2 hc1 (by omega) hyoung
  · intro t2 hold
    refine ⟨_, _, create_of_old st1 s t2 hinv1 hc1 hold, rfl, ?_⟩
    simp only
    omega

/-- C5 witness: starting from an empty ledger with allocator `1`, the
first call at time `1000` creates channel `1`; the theorem then yields
reuse at time `2000` and a fresh channel after time `4601`. -/
theorem getOrCreateSession_lifecycle_witness :
    ∃ s, (⟨some ⟨1, 1000, true⟩, 2⟩ : FactoryState).current = some s ∧
      s.addr = (1 : ℕ) ∧
      (∀ t2, t2 - s.createdAt ≤ ONE_HOUR →
        getOrCreateSession ⟨some ⟨1, 1000, true⟩, 2⟩ t2
          = .ok (⟨some ⟨1, 1000, true⟩, 2⟩, ⟨1, true⟩)) ∧
      (∀ t2, ONE_HOUR < t2 - s.createdAt →
        ∃ st2 r2, getOrCreateSession ⟨some ⟨1, 1000, true⟩, 2⟩ t2
            = .ok (st2, r2) ∧ r2.existed = false ∧ r2.contractAddress ≠ 1) :=
  getOrCreateSession_lifecycle ⟨none, 1⟩ ⟨some ⟨1, 1000, true⟩, 2⟩ 1000
    ⟨1, false⟩ (by decide) (by rfl)

/-- C10: `getOrCreateSession` never consults the ledger's activity flag:
for a pair whose mapped channel is nonzero, explicitly closed on chain
(`sessionActive = false`) and at most one hour old, the manager still
returns that channel with `existed = true`, even though
`getSessionBetween` reports it inactive and the channel's
`sessionMustBeActive` guard would reject any new message. -/
theorem getOrCreateSession_ignores_isActive (st : FactoryState)
    (s : OnChainSession) (now : ℕ) (hc : st.current = some s)
    (haddr : s.addr ≠ 0) (hclosed : s.active = false)
    (hyoung : now - s.createdAt ≤ ONE_HOUR) :
    getOrCreateSession st now = .ok (st, ⟨s.addr, true⟩) ∧
    (getSessionBetween st now).2 = false ∧
    sessionMustBeActive s now = false := by
  refine ⟨reuse_of_young st s now hc haddr hyoung, ?_, ?_⟩
  · simp [getSessionBetween, hc, hclosed]
  · simp [sessionMustBeActive, hclosed]

/-- C10 witness: a channel closed on chain at address `1`, created at
time `0`, queried at time `100`. -/
theorem getOrCreateSession_ignores_isActive_witness :
    getOrCreateSession ⟨some ⟨1, 0, false⟩, 2⟩ 100
      = .ok (⟨some ⟨1, 0, false⟩, 2⟩, ⟨1, true⟩) ∧
    (getSessionBetween ⟨some ⟨1, 0, false⟩, 2⟩ 100).2 = false ∧
    sessionMustBeActive ⟨1, 0, false⟩ 100 = false :=
  getOrCreateSession_ignores_isActive ⟨some ⟨1, 0, false⟩, 2⟩ ⟨1, 0, false⟩
    100 rfl (by decide) rfl (by decide)

/-- A scan fixture: the event delivered by the first 500-block chunk. -/
def bugEventA : ChainEvent := ⟨"0xaa", "cidA", 1, 0, 0⟩

/-- A scan fixture: the event every 100-block sub-query of the rejected
chunk would deliver. -/
def bugEventB : ChainEvent := ⟨"0xbb", "cidB", 2, 0, 1⟩

/-- A scan fixture: the event delivered by the last 500-block chunk. -/
def bugEventC : ChainEvent := ⟨"0xcc", "cidC", 3, 0, 2⟩

/-- A scan fixture: a provider that rejects the 500-block query over
blocks 500-999 as too large but answers every other query — in
particular every 100-block sub-query of the rejected range — with
events. -/
def bugQuery : ℕ → ℕ → QueryResult := fun fromBlock toBlock =>
  if fromBlock = 500 ∧ toBlock = 999 then .rangeError
  else if fromBlock = 0 then .ok [bugEventA]
  else if fromBlock = 1000 then .ok [bugEventC]
  else .ok [bugEventB]

/-- C6 (code bug): on a scan of blocks 0-1499 where the provider rejects
the middle 500-block chunk as too large but would answer each of its five
100-block sub-queries with an event, the scan returns only the events of
the other two chunks — the rejection does not abort the scan and earlier
results are kept, but the smaller-chunk retry collects nothing, because
the catch block's `queryFilter(filter, ...)` call names the `const
filter` binding of the try block, which is out of scope there, so each
sub-chunk attempt dies on a `ReferenceError` that the inner catch
swallows.  The intended retry (per the specification and the source's
own log message) would have collected the five sub-range events. -/
theorem scanner_subchunk_retry_lost :
    getSessionMessagesWithLimit bugQuery 1499 0 =
      [eventToSessionMessage bugEventA, eventToSessionMessage bugEventC] ∧
    retrySmallChunks 500 999 = [] ∧
    retrySmallChunksIntended bugQuery 500 999 =
      [bugEventB, bugEventB, bugEventB, bugEventB, bugEventB] := by
  decide

/-- Merge fixture: persistent-store messages with timestamps 5, 1, 3. -/
def exampleStandard : List Message :=
  [⟨"0xa", "m5", 5, 0, "main"⟩, ⟨"0xa", "m1", 1, 0, "main"⟩,
   ⟨"0xa", "m3", 3, 0, "main"⟩]

/-- Merge fixture: session messages with timestamps 2, 4. -/
def exampleSession : List Message :=
  [⟨"0xb", "s2", 2, 0, "session"⟩, ⟨"0xb", "s4", 4, 0, "session"⟩]

/-- Merge fixture: the expected merged order 1, 2, 3, 4, 5, with each
message still carrying its source annotation. -/
def exampleMerged : List Message :=
  [⟨"0xa", "m1", 1, 0, "main"⟩, ⟨"0xb", "s2", 2, 0, "session"⟩,
   ⟨"0xa", "m3", 3, 0, "main"⟩, ⟨"0xb", "s4", 4, 0, "session"⟩,
   ⟨"0xa", "m5", 5, 0, "main"⟩]

/-- Merge fixture: a timestamp tie between the two sources. -/
def tieStandard : List Message := [⟨"0xa", "t1", 7, 0, "main"⟩]

/-- Merge fixture: the session side of the tie. -/
def tieSession : List Message := [⟨"0xb", "t2", 7, 0, "session"⟩]

/-- Merge fixture: ties keep arrival order — the persistent-store message
is concatenated first, so it stays first. -/
def tieMerged : List Message :=
  [⟨"0xa", "t1", 7, 0, "main"⟩, ⟨"0xb", "t2", 7, 0, "session"⟩]

/-- C7: `mergeConversation` returns a permutation of the concatenation of
the two sources, sorted ascending by creation timestamp; on the
specification's example (timestamps 5, 1, 3 from the persistent store and
2, 4 from sessions) it yields 1, 2, 3, 4, 5 with each message carrying
its source annotation, and a timestamp tie keeps arrival order. -/
theorem mergeConversation_spec :
    (∀ standardMessages sessionMessages : List Message,
      (mergeConversation standardMessages sessionMessages).Perm
        (standardMessages ++ sessionMessages) ∧
      List.Sorted byTimestamp
        (mergeConversation standardMessages sessionMessages)) ∧
    mergeConversation exampleStandard exampleSession = exampleMerged ∧
    mergeConversation tieStandard tieSession = tieMerged := by
  refine ⟨fun s1 s2 => ⟨List.perm_insertionSort byTimestamp _,
    List.sorted_insertionSort byTimestamp _⟩, by decide, by decide⟩

/-- Expiry fixture: an expired persistent-store message from `0xaaaa`. -/
def expiredExampleA : Message := ⟨"0xaaaa", "cid", 50, 100, "main"⟩

/-- Expiry fixture: an expired session message from `0xbbbb`, identical
to `expiredExampleA` except for sender and channel. -/
def expiredExampleB : Message := ⟨"0xbbbb", "cid", 50, 100, "session"⟩

/-- Expiry fixture: a message without expiry. -/
def freshExample : Message := ⟨"0xaaaa", "cid", 50, 0, "main"⟩

/-- C8 counterexample: the expired rendering does not carry the sender or
the channel — two expired messages that differ exactly in sender and
channel render to the same entry, which holds only the creation
timestamp.  This refutes the claim that an expired message is rendered
with sender, timestamp and channel metadata. -/
theorem renderMessage_expired_no_sender :
    renderMessage (fun _ => DecResult.undecryptableSentinel) 200 "0xme"
        expiredExampleA = RenderEntry.expired 50 ∧
    renderMessage (fun _ => DecResult.undecryptableSentinel) 200 "0xme"
        expiredExampleB = RenderEntry.expired 50 := by
  decide

/-- C8 amended: a message with nonzero expiry strictly below the current
time is rendered as the expired placeholder, which shows its creation
timestamp only and suppresses the content; the rendering does not depend
on the decryption function (decryption is not attempted); and a message
with expiry `0` is never treated as expired — it is rendered through the
normal branch. -/
theorem renderMessage_expiry_policy :
    (∀ decrypt now myAddress m, m.expiry ≠ 0 → m.expiry < now →
      renderMessage decrypt now myAddress m = RenderEntry.expired m.timestamp) ∧
    (∀ decrypt decrypt2 now myAddress m, m.expiry ≠ 0 → m.expiry < now →
      renderMessage decrypt now myAddress m
        = renderMessage decrypt2 now myAddress m) ∧
    (∀ decrypt now myAddress m, m.expiry = 0 →
      renderMessage decrypt now myAddress m =
        RenderEntry.shown (toLowerCase m.sender == toLowerCase myAddress)
          m.sender m.timestamp (sourceIcon m.source) (decrypt m) m.expiry) := by
  refine ⟨?_, ?_, ?_⟩
  · intro decrypt now myAddress m h1 h2
    unfold renderMessage
    rw [if_pos ⟨h1, h2⟩]
  · intro decrypt decrypt2 now myAddress m h1 h2
    unfold renderMessage
    rw [if_pos ⟨h1, h2⟩, if_pos ⟨h1, h2⟩]
  · intro decrypt now myAddress m h0
    unfold renderMessage
    rw [if_neg (fun hcon => hcon.1 h0)]

/-- C8 witness: the amended policy at concrete inputs — an expired
message at time 200 renders as the bare-timestamp placeholder under two
different decryption functions, and a no-expiry message renders through
the normal branch. -/
theorem renderMessage_expiry_policy_witness :
    renderMessage (fun _ => DecResult.legacySentinel) 200 "0xme"
        expiredExampleA = RenderEntry.expired 50 ∧
    renderMessage (fun _ => DecResult.legacySentinel) 200 "0xme"
        expiredExampleA
      = renderMessage (fun _ => DecResult.undecryptableSentinel) 200 "0xme"
          expiredExampleA ∧
    renderMessage (fun _ => DecResult.legacySentinel) 200 "0xme" freshExample
      = RenderEntry.shown false "0xaaaa" 50 "📨" DecResult.legacySentinel 0 := by
  have h := renderMessage_expiry_policy
  refine ⟨h.1 _ 200 "0xme" expiredExampleA (by decide) (by decide),
    h.2.1 _ _ 200 "0xme" expiredExampleA (by decide) (by decide), ?_⟩
  have h3 := h.2.2 (fun _ => DecResult.legacySentinel) 200 "0xme" freshExample
    (by decide)
  rw [h3]
  decide

end ChainWhisper
